import Mathlib

/-!
Shallow embedding of the catalog store (`utils/db_api/book_database.py`) and the
admin upload workflow (`handlers/users/admin_book_handlers.py`) of the books_bot
repository, together with theorems settling the frozen claims about them.

The store state is modelled as the two persisted SQLite tables (`Categories`,
`Books`) plus the AUTOINCREMENT counters; each store method is translated into a
pure state-passing function over that state.  SQL `CURRENT_TIMESTAMP` writes are
modelled by an explicit `now : Nat` argument.  Only the stored schema columns are
modelled; display-only fields that `from_row` synthesises from joins
(`category_name`, `book_count`, `updated_at`) are not part of any table row.
-/

namespace BooksBot

/-- `FileType` enum from `book_database.py` (`PDF/AUDIO/EPUB/FB2`). -/
inductive FileType
  | pdf
  | audio
  | epub
  | fb2
deriving DecidableEq, Repr

/-- `FileType.value`: the string stored in the `file_type` column. -/
def FileType.value : FileType → String
  | .pdf => "pdf"
  | .audio => "audio"
  | .epub => "epub"
  | .fb2 => "fb2"

/-- A row of the `Categories` table (schema in `create_tables`):
`id, name, description, parent_id, created_at, created_by, is_deleted, deleted_at`. -/
structure Category where
  id : Nat
  name : String
  description : Option String
  parent_id : Option Nat
  created_at : Nat
  created_by : Nat
  is_deleted : Bool
  deleted_at : Option Nat
deriving DecidableEq, Repr

/-- A row of the `Books` table (schema in `create_tables`).  The `file_type`
column is stored as the raw string, exactly as `add_book` writes it. -/
structure Book where
  id : Nat
  title : String
  file_id : String
  file_type : String
  category_id : Nat
  author : Option String
  narrator : Option String
  description : Option String
  duration : Option Nat
  file_size : Option Nat
  uploaded_by : Nat
  download_count : Nat
  created_at : Nat
  is_deleted : Bool
  deleted_at : Option Nat
deriving DecidableEq, Repr

/-- The persistent store: the two tables plus the AUTOINCREMENT counters. -/
structure Db where
  categories : List Category
  books : List Book
  next_category_id : Nat
  next_book_id : Nat
deriving DecidableEq, Repr

/-- `get_category_by_id`: `SELECT * FROM Categories WHERE id = ?` (`fetchone`,
no `is_deleted` filter). -/
def get_category_by_id (db : Db) (category_id : Nat) : Option Category :=
  db.categories.find? (fun c => c.id == category_id)

/-- `get_category_by_name`: live category with the given name under the given
parent (`parent_id IS NULL` when the parent is absent). -/
def get_category_by_name (db : Db) (name : String) (parent_id : Option Nat) :
    Option Category :=
  match parent_id with
  | some p =>
      db.categories.find? (fun c => c.name == name && c.parent_id == some p && !c.is_deleted)
  | none =>
      db.categories.find? (fun c => c.name == name && c.parent_id == none && !c.is_deleted)

/-- `add_category`: a plain `INSERT INTO Categories (name, description, parent_id,
created_by)`; the schema fills `created_at`, `is_deleted = 0`, `deleted_at = NULL`.
Returns `lastrowid` and the new state.  No validation is performed here. -/
def add_category (db : Db) (now : Nat) (name : String) (created_by : Nat)
    (description : Option String) (parent_id : Option Nat) : Nat × Db :=
  let cid := db.next_category_id
  let c : Category :=
    { id := cid, name := name, description := description, parent_id := parent_id,
      created_at := now, created_by := created_by, is_deleted := false, deleted_at := none }
  (cid, { db with categories := db.categories ++ [c], next_category_id := cid + 1 })

/-- `delete_category` (soft path): flips `is_deleted`/`deleted_at` on the row. -/
def delete_category_soft (db : Db) (now : Nat) (category_id : Nat) : Db :=
  { db with categories := db.categories.map (fun c =>
      if c.id = category_id then { c with is_deleted := true, deleted_at := some now } else c) }

/-- `restore_category`: `UPDATE Categories SET is_deleted = 0, deleted_at = NULL
WHERE id = ?`. -/
def restore_category (db : Db) (category_id : Nat) : Db :=
  { db with categories := db.categories.map (fun c =>
      if c.id = category_id then { c with is_deleted := false, deleted_at := none } else c) }

/-- `get_book_by_id`: first `Books` row with the given id (the `LEFT JOIN` only
adds the display-only category name). -/
def get_book_by_id (db : Db) (book_id : Nat) : Option Book :=
  db.books.find? (fun b => b.id == book_id)

/-- `get_book_by_file_id`: `WHERE Books.file_id = ?` — note: no `is_deleted`
filter, soft-deleted rows are also found. -/
def get_book_by_file_id (db : Db) (file_id : String) : Option Book :=
  db.books.find? (fun b => b.file_id == file_id)

/-- `add_book`: a plain `INSERT INTO Books (...)`; defaults fill
`download_count = 0`, `created_at`, `is_deleted = 0`, `deleted_at = NULL`.
Returns `lastrowid` and the new state.  No duplicate check is performed here. -/
def add_book (db : Db) (now : Nat) (title : String) (file_id : String)
    (category_id : Nat) (uploaded_by : Nat) (file_type : String)
    (author : Option String) (narrator : Option String) (description : Option String)
    (duration : Option Nat) (file_size : Option Nat) : Nat × Db :=
  let bid := db.next_book_id
  let b : Book :=
    { id := bid, title := title, file_id := file_id, file_type := file_type,
      category_id := category_id, author := author, narrator := narrator,
      description := description, duration := duration, file_size := file_size,
      uploaded_by := uploaded_by, download_count := 0, created_at := now,
      is_deleted := false, deleted_at := none }
  (bid, { db with books := db.books ++ [b], next_book_id := bid + 1 })

/-- `delete_book` (soft path). -/
def delete_book_soft (db : Db) (now : Nat) (book_id : Nat) : Db :=
  { db with books := db.books.map (fun b =>
      if b.id = book_id then { b with is_deleted := true, deleted_at := some now } else b) }

/-- `restore_book`: `UPDATE Books SET is_deleted = 0, deleted_at = NULL WHERE id = ?`. -/
def restore_book (db : Db) (book_id : Nat) : Db :=
  { db with books := db.books.map (fun b =>
      if b.id = book_id then { b with is_deleted := false, deleted_at := none } else b) }

/-- `increment_download_count`: `UPDATE Books SET download_count =
download_count + 1 WHERE id = ?`, then `SELECT download_count ... fetchone`,
returning `result[0] if result else 0`. -/
def increment_download_count (db : Db) (book_id : Nat) : Nat × Db :=
  let books' := db.books.map (fun b =>
    if b.id = book_id then { b with download_count := b.download_count + 1 } else b)
  let db' := { db with books := books' }
  match books'.find? (fun b => b.id == book_id) with
  | some b => (b.download_count, db')
  | none => (0, db')

-- ===================== get_category_path =====================

/-- The `while current_id and current_id not in visited` loop of
`get_category_path`, carrying the loop state `(current_id, visited, path)`.
The accumulator holds `(id, name)` pairs, `path.insert(0, name)` becoming a
prepend; the fuel argument only bounds the iteration count, and
`pathLoop_fuel_stable` shows the value used by `get_category_path` is already
past the stabilization point, i.e. the Python loop terminates. -/
def pathLoop (db : Db) : Nat → Option Nat → List Nat → List (Nat × String) →
    List (Nat × String)
  | 0, _, _, acc => acc
  | _ + 1, none, _, acc => acc
  | fuel + 1, some c, visited, acc =>
    if c = 0 then acc
    else if c ∈ visited then acc
    else
      match get_category_by_id db c with
      | none => acc
      | some cat => pathLoop db fuel cat.parent_id (c :: visited) ((c, cat.name) :: acc)

/-- `get_category_path`: walk `parent_id` links from `category_id`, collecting
names root-first, and join with `" → "` (the join of an empty list is `""`,
matching the `if path else ""` guard). -/
def get_category_path (db : Db) (category_id : Nat) : String :=
  String.intercalate " → "
    ((pathLoop db (db.categories.length + 1) (some category_id) [] []).map Prod.snd)

/-- One `(id, name)` entry of a path is genuine: the id resolves to a stored
category whose name is the recorded one. -/
def entryOk (db : Db) (e : Nat × String) : Bool :=
  match get_category_by_id db e.1 with
  | some cat => e.2 == cat.name
  | none => false

/-- The child's stored `parent_id` link points at the entry before it. -/
def linkOk (db : Db) (parent : Nat) (child : Nat × String) : Bool :=
  match get_category_by_id db child.1 with
  | some cat => cat.parent_id == some parent
  | none => false

/-- A root-first list of `(id, name)` entries is a genuine parent chain in the
stored table: every entry resolves, and each entry after the first carries a
`parent_id` link to its predecessor. -/
def chainOk (db : Db) : List (Nat × String) → Bool
  | [] => true
  | [e] => entryOk db e
  | e :: e' :: rest => entryOk db e && linkOk db e.1 e' && chainOk db (e' :: rest)

-- ===================== bulk insert =====================

/-- One positional record handed to `add_books_bulk` — the 10-tuple
`(title, file_id, file_type, category_id, author, narrator, description,
duration, file_size, uploaded_by)` built by `bulk_finish`; any slot may be
`None`. -/
structure BookRow where
  title : Option String
  file_id : Option String
  file_type : Option String
  category_id : Option Nat
  author : Option String
  narrator : Option String
  description : Option String
  duration : Option Nat
  file_size : Option Nat
  uploaded_by : Option Nat
deriving DecidableEq, Repr

/-- Whether the `INSERT` for one bulk record succeeds: SQLite rejects the row
exactly when a `NOT NULL` column (`title, file_id, file_type, category_id,
uploaded_by`) is `None`; length limits like `VARCHAR(500)` and an empty string
are not enforced by SQLite. -/
def bulkRowOk (r : BookRow) : Bool :=
  r.title.isSome && r.file_id.isSome && r.file_type.isSome
    && r.category_id.isSome && r.uploaded_by.isSome

/-- The effect of one iteration of `add_books_bulk`: the `INSERT` either adds
the row (same statement as `add_book`) or raises, which the `except` arm turns
into a counted error. -/
def bulkInsert (db : Db) (now : Nat) (r : BookRow) : Option (Nat × Db) :=
  match r.title, r.file_id, r.file_type, r.category_id, r.uploaded_by with
  | some t, some fid, some ft, some cid, some uid =>
      some (add_book db now t fid cid uid ft r.author r.narrator r.description
        r.duration r.file_size)
  | _, _, _, _, _ => none

/-- One loop iteration of `add_books_bulk`: `added += 1` on success,
`errors += 1` on a caught exception, state unchanged on failure. -/
def bulkStep (now : Nat) (acc : (Nat × Nat) × Db) (r : BookRow) : (Nat × Nat) × Db :=
  match bulkInsert acc.2 now r with
  | some (_, db') => ((acc.1.1 + 1, acc.1.2), db')
  | none => ((acc.1.1, acc.1.2 + 1), acc.2)

/-- `add_books_bulk`: fold over the records, counting `added`/`errors`; a
failed record leaves the state unchanged and the loop continues. -/
def add_books_bulk (db : Db) (now : Nat) (rows : List BookRow) : (Nat × Nat) × Db :=
  rows.foldl (bulkStep now) ((0, 0), db)

-- ===================== get_books (pagination) =====================

/-- `PaginatedResult` dataclass. -/
structure PaginatedResult (α : Type) where
  items : List α
  total : Nat
  page : Nat
  per_page : Nat
  total_pages : Nat
  has_next : Bool
  has_prev : Bool
deriving DecidableEq, Repr

/-- `BookSortBy` enum. -/
inductive BookSortBy
  | title
  | created_at
  | download_count
  | author
deriving DecidableEq, Repr

/-- `SortOrder` enum. -/
inductive SortOrder
  | asc
  | desc
deriving DecidableEq, Repr

/-- Executable byte-wise string comparison, the `BINARY` collation SQLite uses
for `ORDER BY` on a text column. -/
def charListLe : List Char → List Char → Bool
  | [], _ => true
  | _ :: _, [] => false
  | a :: as, b :: bs =>
      if a = b then charListLe as bs else decide (a.toNat < b.toNat)

/-- `ORDER BY` on a nullable text column: SQLite sorts `NULL` first. -/
def optStrLe : Option String → Option String → Bool
  | none, _ => true
  | some _, none => false
  | some a, some b => charListLe a.data b.data

/-- The `ORDER BY b.{sort_by} {sort_order}` comparison of `get_books`. -/
def bookLe (sort_by : BookSortBy) (sort_order : SortOrder) (a b : Book) : Bool :=
  let le :=
    match sort_by with
    | .title => charListLe a.title.data b.title.data
    | .created_at => decide (a.created_at ≤ b.created_at)
    | .download_count => decide (a.download_count ≤ b.download_count)
    | .author => optStrLe a.author b.author
  match sort_order with
  | .asc => le
  | .desc => !le

/-- The `WHERE` clause of `get_books`.  `if category_id:` and `if file_type:`
are Python truthiness tests, so `category_id = 0` adds no condition. -/
def matchesFilter (include_deleted : Bool) (category_id : Option Nat)
    (file_type : Option String) (b : Book) : Bool :=
  (include_deleted || !b.is_deleted)
    && (match category_id with
        | some c => if c = 0 then true else b.category_id == c
        | none => true)
    && (match file_type with
        | some ft => if ft = "" then true else b.file_type == ft
        | none => true)

/-- `get_books`: count the matching rows, compute
`total_pages = (total + per_page - 1) // per_page if total > 0 else 1` and
`offset = (page - 1) * per_page`, and slice the ordered matches with
`LIMIT per_page OFFSET offset`. -/
def get_books (db : Db) (category_id : Option Nat) (file_type : Option String)
    (include_deleted : Bool) (page : Nat) (per_page : Nat)
    (sort_by : BookSortBy) (sort_order : SortOrder) : PaginatedResult Book :=
  let matching := db.books.filter (matchesFilter include_deleted category_id file_type)
  let total := matching.length
  let total_pages := if total > 0 then (total + per_page - 1) / per_page else 1
  let offset := (page - 1) * per_page
  let ordered := matching.mergeSort (bookLe sort_by sort_order)
  { items := (ordered.drop offset).take per_page,
    total := total, page := page, per_page := per_page, total_pages := total_pages,
    has_next := page < total_pages, has_prev := decide (page > 1) }

-- ===================== upload workflow (admin_book_handlers.py) =====================

/-- Python's `str.strip()`: drop leading and trailing whitespace (executable
char-list version, used instead of `String.trim` so concrete instances reduce). -/
def strip (s : String) : String :=
  ⟨((s.data.dropWhile Char.isWhitespace).reverse.dropWhile Char.isWhitespace).reverse⟩

/-- The `f"{AdminEmoji.CANCEL} Bekor"` button text every handler compares against. -/
def cancelText : String := "🚫 Bekor"

/-- The `f"{AdminEmoji.SKIP} O'tkazish"` button text. -/
def skipText : String := "⏩ O'tkazish"

/-- `AdminBookState` states group (single-book upload). -/
inductive AdminBookState
  | select_category
  | select_subcategory
  | upload_file
  | enter_title
  | enter_author
  | enter_narrator
  | enter_description
deriving DecidableEq, Repr

/-- The dict `extract_file_data` returns for an accepted PDF/audio upload. -/
structure FileData where
  file_id : String
  file_size : Option Nat
  file_name : String
  file_type : FileType
  duration : Option Nat
deriving DecidableEq, Repr

/-- A user turn delivered to the workflow: a text message or an accepted file. -/
inductive MsgInput
  | textMsg (s : String)
  | fileMsg (fd : FileData)
deriving DecidableEq, Repr

/-- The `FSMContext` data the single-book handlers accumulate. -/
structure BookDraft where
  category_id : Option Nat
  file_id : Option String
  file_type : Option FileType
  file_size : Option Nat
  duration : Option Nat
  title : Option String
  author : Option String
  narrator : Option String
deriving DecidableEq, Repr

/-- Result of dispatching one message: the next session state (`none` after
`state.finish()`), the updated draft, the store, and the id of a Book persisted
by this step, if any. -/
structure StepOut where
  next : Option AdminBookState
  draft : BookDraft
  db : Db
  committed : Option Nat
deriving DecidableEq, Repr

/-- One dispatch step of the single-book upload workflow, combining the
per-state `@dp.message_handler` functions (`add_book_file`, `add_book_title`,
`add_book_author`, `add_book_narrator`, `add_book_description`) and the
state-wide `cancel_any` fallback.  `uploader` is the `get_user_db_id`
resolution of the sender.  Text in the selection states and files in the text
states have no registered handler and leave everything unchanged; the
final-state fallback with an incomplete draft mirrors the `KeyError` path,
which neither persists nor finishes. -/
def uploadStep (uploader : Option Nat) (now : Nat) (db : Db)
    (st : AdminBookState) (d : BookDraft) (input : MsgInput) : StepOut :=
  match st, input with
  | .select_category, .textMsg s =>
      if s == cancelText then ⟨none, d, db, none⟩
      else ⟨some .select_category, d, db, none⟩
  | .select_category, .fileMsg _ => ⟨some .select_category, d, db, none⟩
  | .select_subcategory, .textMsg s =>
      if s == cancelText then ⟨none, d, db, none⟩
      else ⟨some .select_subcategory, d, db, none⟩
  | .select_subcategory, .fileMsg _ => ⟨some .select_subcategory, d, db, none⟩
  | .upload_file, .textMsg s =>
      if s == cancelText then ⟨none, d, db, none⟩
      else ⟨some .upload_file, d, db, none⟩
  | .upload_file, .fileMsg fd =>
      match get_book_by_file_id db fd.file_id with
      | some _ => ⟨some .upload_file, d, db, none⟩
      | none =>
          ⟨some .enter_title,
            { d with file_id := some fd.file_id, file_size := fd.file_size,
                     file_type := some fd.file_type, duration := fd.duration },
            db, none⟩
  | .enter_title, .fileMsg _ => ⟨some .enter_title, d, db, none⟩
  | .enter_title, .textMsg s =>
      if s == cancelText then ⟨none, d, db, none⟩
      else
        let title := strip s
        if title.length < 2 || title.length > 255 then ⟨some .enter_title, d, db, none⟩
        else ⟨some .enter_author, { d with title := some title }, db, none⟩
  | .enter_author, .fileMsg _ => ⟨some .enter_author, d, db, none⟩
  | .enter_author, .textMsg s =>
      if s == cancelText then ⟨none, d, db, none⟩
      else
        let author := if s == skipText then none else some ((strip s).take 100)
        let d' := { d with author := author }
        if d.file_type == some FileType.audio then ⟨some .enter_narrator, d', db, none⟩
        else ⟨some .enter_description, d', db, none⟩
  | .enter_narrator, .fileMsg _ => ⟨some .enter_narrator, d, db, none⟩
  | .enter_narrator, .textMsg s =>
      if s == cancelText then ⟨none, d, db, none⟩
      else
        let narrator := if s == skipText then none else some ((strip s).take 100)
        ⟨some .enter_description, { d with narrator := narrator }, db, none⟩
  | .enter_description, .fileMsg _ => ⟨some .enter_description, d, db, none⟩
  | .enter_description, .textMsg s =>
      if s == cancelText then ⟨none, d, db, none⟩
      else
        let description := if s == skipText then none else some ((strip s).take 1000)
        match uploader with
        | none => ⟨none, d, db, none⟩
        | some uid =>
            match d.title, d.file_id, d.file_type, d.category_id with
            | some t, some fid, some ft, some cid =>
                let r := add_book db now t fid cid uid ft.value d.author d.narrator
                  description d.duration d.file_size
                ⟨none, d, r.2, some r.1⟩
            | _, _, _, _ => ⟨some .enter_description, d, db, none⟩

/-- Outcome of the `category_name_entered` handler. -/
inductive CatNameOutcome
  | cancelled
  | reprompt
  | accepted (name : String)
deriving DecidableEq, Repr

/-- `category_name_entered` (state `AdminCategoryState.enter_name`): cancel
finishes; a stripped name shorter than 2 or longer than 100 characters, or one
that collides with a live sibling (`get_category_by_name`), re-prompts without
touching the store; otherwise the name is accepted and the session moves on to
the description state (the `INSERT` only happens later, in
`category_desc_entered`). -/
def category_name_entered (db : Db) (parent_id : Option Nat) (text : String) :
    CatNameOutcome :=
  if text == cancelText then .cancelled
  else
    let name := strip text
    if name.length < 2 || name.length > 100 then .reprompt
    else if (get_category_by_name db name parent_id).isSome then .reprompt
    else .accepted name

-- ===================== concrete fixtures =====================

/-- A root category, live. -/
def catRoot : Category := ⟨1, "Adabiyot", none, none, 0, 1, false, none⟩

/-- A live subcategory of `catRoot`. -/
def catSub : Category := ⟨2, "Nazm", none, some 1, 0, 1, false, none⟩

/-- A live stored PDF book with file reference `"F"`. -/
def bookF : Book :=
  ⟨1, "Sonetlar", "F", "pdf", 2, some "A", none, none, none, none, 1, 0, 0, false, none⟩

/-- Concrete store: two live categories and one live book. -/
def dbW : Db := ⟨[catRoot, catSub], [bookF], 3, 2⟩

/-- The empty store. -/
def dbEmpty : Db := ⟨[], [], 1, 1⟩

/-- Malformed cyclic table: ids 1 and 2 are each other's parent. -/
def dbCyc : Db := ⟨[⟨1, "Bolalar", none, some 2, 0, 1, false, none⟩,
                    ⟨2, "Asosiy", none, some 1, 0, 1, false, none⟩], [], 3, 1⟩

/-- An empty workflow draft. -/
def draftEmpty : BookDraft := ⟨none, none, none, none, none, none, none, none⟩

/-- A draft of a PDF-kind record, category and title collected. -/
def draftPdf : BookDraft :=
  ⟨some 2, some "F2", some .pdf, some 100, none, some "Sonetlar", none, none⟩

/-- A fresh PDF file message. -/
def fdPdf : FileData := ⟨"F2", some 100, "kitob.pdf", .pdf, none⟩

/-- A file message whose reference duplicates the stored `bookF`. -/
def fdDup : FileData := ⟨"F", some 10, "dup.pdf", .pdf, none⟩

-- ===================== helper lemmas =====================

/-- A map by a function that fixes every element of the list is the identity. -/
theorem map_eq_self_of {α : Type} {f : α → α} :
    ∀ {l : List α}, (∀ x ∈ l, f x = x) → l.map f = l
  | [], _ => rfl
  | x :: xs, h => by
      have hx := h x (List.mem_cons_self x xs)
      have hxs := map_eq_self_of (fun y hy => h y (List.mem_cons_of_mem x hy))
      simp [hx, hxs]

/-- Maps by pointwise-equal functions agree. -/
theorem map_congr_fun {α β : Type} {f g : α → β} (h : ∀ x, f x = g x) (l : List α) :
    l.map f = l.map g := by
  rw [show f = g from funext h]

-- ===================== C10 =====================

/-- C10: for an id that resolves to no `Categories` row, `get_category_path`
returns the empty string rather than raising; it is total and string-valued by
construction. -/
theorem C10_missing_id_gives_empty_path (db : Db) (cid : Nat)
    (h : get_category_by_id db cid = none) :
    get_category_path db cid = "" := by
  have hempty : pathLoop db (db.categories.length + 1) (some cid) [] [] = [] := by
    simp only [pathLoop]
    by_cases h0 : cid = 0
    · simp [h0]
    · simp [h0, h]
  simp [get_category_path, hempty]
  rfl

/-- Witness for C10 at a concrete store with no categories. -/
theorem C10_missing_id_witness : get_category_path dbEmpty 5 = "" :=
  C10_missing_id_gives_empty_path dbEmpty 5 (by decide)

-- ===================== C9 =====================

/-- C9: in every state of the single-book workflow the cancel text finishes the
session, commits nothing, and leaves the store untouched; moreover no state
other than the final description state ever changes the store on any input, so
a cancelled session leaves the Books table exactly as it was. -/
theorem C9_cancel_keeps_store (uploader : Option Nat) (now : Nat) (db : Db)
    (st : AdminBookState) (d : BookDraft) :
    (uploadStep uploader now db st d (.textMsg cancelText)).next = none
    ∧ (uploadStep uploader now db st d (.textMsg cancelText)).db = db
    ∧ (uploadStep uploader now db st d (.textMsg cancelText)).committed = none
    ∧ ∀ (input : MsgInput) (st' : AdminBookState), st' ≠ .enter_description →
        (uploadStep uploader now db st' d input).db = db := by
  refine ⟨?_, ?_, ?_, ?_⟩
  · cases st <;> simp [uploadStep]
  · cases st <;> simp [uploadStep]
  · cases st <;> simp [uploadStep]
  · intro input st' hne
    cases st' <;> cases input <;>
      first
        | exact absurd rfl hne
        | rfl
        | (simp only [uploadStep]; (repeat' split) <;> rfl)

/-- Witness for C9 at a concrete state. -/
theorem C9_cancel_witness :
    (uploadStep (some 1) 0 dbW .enter_title draftEmpty (.textMsg cancelText)).next = none
    ∧ (uploadStep (some 1) 0 dbW .enter_title draftEmpty (.textMsg cancelText)).db = dbW
    ∧ (uploadStep (some 1) 0 dbW .enter_title draftEmpty
        (.textMsg cancelText)).committed = none
    ∧ (uploadStep (some 1) 0 dbW .enter_author draftEmpty (.fileMsg fdPdf)).db = dbW :=
  ⟨(C9_cancel_keeps_store (some 1) 0 dbW .enter_title draftEmpty).1,
   (C9_cancel_keeps_store (some 1) 0 dbW .enter_title draftEmpty).2.1,
   (C9_cancel_keeps_store (some 1) 0 dbW .enter_title draftEmpty).2.2.1,
   (C9_cancel_keeps_store (some 1) 0 dbW .enter_author draftEmpty).2.2.2
     (.fileMsg fdPdf) .enter_author (by decide)⟩

-- ===================== C7 =====================

/-- C7: a session in the author state whose collected record is PDF-kind never
moves to the narrator state, and on any non-cancel text (skip included) it
moves directly to the description state. -/
theorem C7_pdf_never_narrator (uploader : Option Nat) (now : Nat) (db : Db)
    (d : BookDraft) (input : MsgInput) (h : d.file_type = some FileType.pdf) :
    (uploadStep uploader now db .enter_author d input).next ≠ some .enter_narrator
    ∧ ∀ s, input = .textMsg s → s ≠ cancelText →
        (uploadStep uploader now db .enter_author d input).next
          = some .enter_description := by
  have hft : (d.file_type == some FileType.audio) = false := by rw [h]; rfl
  constructor
  · cases input with
    | fileMsg fd => simp [uploadStep]
    | textMsg s =>
        by_cases hc : (s == cancelText) = true
        · simp [uploadStep, hc]
        · simp only [Bool.not_eq_true] at hc
          simp [uploadStep, hc, hft]
  · rintro s rfl hs
    have hc : (s == cancelText) = false := by simp [hs]
    simp [uploadStep, hc, hft]

/-- Witness for C7: skipping the author of a PDF record lands in the
description state. -/
theorem C7_pdf_witness :
    (uploadStep (some 1) 0 dbW .enter_author draftPdf (.textMsg skipText)).next
      = some .enter_description
    ∧ (uploadStep (some 1) 0 dbW .enter_author draftPdf (.textMsg skipText)).next
        ≠ some .enter_narrator :=
  ⟨(C7_pdf_never_narrator (some 1) 0 dbW draftPdf (.textMsg skipText) (by decide)).2
      skipText rfl (by decide),
   (C7_pdf_never_narrator (some 1) 0 dbW draftPdf (.textMsg skipText) (by decide)).1⟩

-- ===================== C6 =====================

/-- C6: `restore_category`/`restore_book` are idempotent — restoring twice
equals restoring once, and restoring a row that is already live (and, as every
reachable live row, has no deletion timestamp) leaves the whole store state
unchanged. -/
theorem C6_restore_idempotent (db : Db) (cid bid : Nat) :
    restore_category (restore_category db cid) cid = restore_category db cid
    ∧ restore_book (restore_book db bid) bid = restore_book db bid
    ∧ ((∀ c ∈ db.categories, c.id = cid → c.is_deleted = false ∧ c.deleted_at = none) →
        restore_category db cid = db)
    ∧ ((∀ b ∈ db.books, b.id = bid → b.is_deleted = false ∧ b.deleted_at = none) →
        restore_book db bid = db) := by
  refine ⟨?_, ?_, ?_, ?_⟩
  · simp only [restore_category, List.map_map]
    congr 1
    apply map_congr_fun
    intro c
    by_cases hc : c.id = cid <;> simp [hc]
  · simp only [restore_book, List.map_map]
    congr 1
    apply map_congr_fun
    intro b
    by_cases hb : b.id = bid <;> simp [hb]
  · intro h
    simp only [restore_category]
    have hmap : db.categories.map (fun c =>
        if c.id = cid then { c with is_deleted := false, deleted_at := none } else c)
        = db.categories := by
      apply map_eq_self_of
      intro c hc
      by_cases hid : c.id = cid
      · obtain ⟨h1, h2⟩ := h c hc hid
        cases c
        simp_all
      · simp [hid]
    rw [hmap]
  · intro h
    simp only [restore_book]
    have hmap : db.books.map (fun b =>
        if b.id = bid then { b with is_deleted := false, deleted_at := none } else b)
        = db.books := by
      apply map_eq_self_of
      intro b hb
      by_cases hid : b.id = bid
      · obtain ⟨h1, h2⟩ := h b hb hid
        cases b
        simp_all
      · simp [hid]
    rw [hmap]

/-- Witness for C6 on a concrete store whose rows are live. -/
theorem C6_restore_witness :
    restore_category (restore_category dbW 1) 1 = restore_category dbW 1
    ∧ restore_book (restore_book dbW 1) 1 = restore_book dbW 1
    ∧ restore_category dbW 1 = dbW
    ∧ restore_book dbW 1 = dbW :=
  ⟨(C6_restore_idempotent dbW 1 1).1, (C6_restore_idempotent dbW 1 1).2.1,
   (C6_restore_idempotent dbW 1 1).2.2.1 (by decide),
   (C6_restore_idempotent dbW 1 1).2.2.2 (by decide)⟩

-- ===================== C8 =====================

/-- The single `UPDATE ... SET download_count = download_count + 1` preserves
the lookup predicate, so finding after updating is updating the found row. -/
theorem find?_increment (bid : Nat) (l : List Book) :
    (l.map (fun c => if c.id = bid then { c with download_count := c.download_count + 1 }
        else c)).find? (fun c => c.id == bid)
      = (l.find? (fun c => c.id == bid)).map
          (fun c => if c.id = bid then { c with download_count := c.download_count + 1 }
            else c) := by
  rw [List.find?_map]
  have hp : ((fun c : Book => c.id == bid) ∘ (fun c : Book =>
      if c.id = bid then { c with download_count := c.download_count + 1 } else c))
      = fun c : Book => c.id == bid := by
    funext c
    by_cases hc : c.id = bid <;> simp [hc]
  rw [hp]

/-- C8: for a present book id, `increment_download_count` returns the old count
plus one, the stored row afterwards differs from the old row only in
`download_count` (now one higher), every other row is untouched in both
directions, and the `Categories` table is untouched. -/
theorem C8_increment_exact (db : Db) (bid : Nat) (b : Book)
    (h : get_book_by_id db bid = some b) :
    (increment_download_count db bid).1 = b.download_count + 1
    ∧ get_book_by_id (increment_download_count db bid).2 bid
        = some { b with download_count := b.download_count + 1 }
    ∧ (increment_download_count db bid).2.books.length = db.books.length
    ∧ (∀ c ∈ db.books, c.id ≠ bid → c ∈ (increment_download_count db bid).2.books)
    ∧ (∀ c ∈ (increment_download_count db bid).2.books, c.id ≠ bid → c ∈ db.books)
    ∧ (increment_download_count db bid).2.categories = db.categories := by
  simp only [get_book_by_id] at h
  have hb : b.id = bid := by
    have hpb := List.find?_some h
    simpa using hpb
  have hfind : (db.books.map (fun c =>
      if c.id = bid then { c with download_count := c.download_count + 1 } else c)).find?
      (fun c => c.id == bid)
      = some { b with download_count := b.download_count + 1 } := by
    rw [find?_increment, h]
    simp [hb]
  have hdb2 : (increment_download_count db bid).2
      = { db with books := db.books.map (fun c =>
          if c.id = bid then { c with download_count := c.download_count + 1 } else c) } := by
    simp only [increment_download_count, hfind]
  refine ⟨?_, ?_, ?_, ?_, ?_, ?_⟩
  · simp only [increment_download_count, hfind]
  · rw [hdb2]
    simp only [get_book_by_id]
    exact hfind
  · rw [hdb2]
    simp
  · intro c hc hne
    rw [hdb2]
    have hmem := List.mem_map_of_mem (fun c : Book =>
        if c.id = bid then { c with download_count := c.download_count + 1 } else c) hc
    simp only [if_neg hne] at hmem
    exact hmem
  · intro c hc hne
    rw [hdb2] at hc
    simp only [List.mem_map] at hc
    obtain ⟨a, ha, rfl⟩ := hc
    by_cases hid : a.id = bid
    · exfalso
      apply hne
      simp [hid]
    · simpa [hid] using ha
  · rw [hdb2]

/-- Witness for C8 on the concrete store. -/
theorem C8_increment_witness :
    (increment_download_count dbW 1).1 = bookF.download_count + 1
    ∧ get_book_by_id (increment_download_count dbW 1).2 1
        = some { bookF with download_count := bookF.download_count + 1 } :=
  ⟨(C8_increment_exact dbW 1 bookF (by decide)).1,
   (C8_increment_exact dbW 1 bookF (by decide)).2.1⟩

-- ===================== C1 =====================

/-- C1 counterexample: the store does not reject a duplicate `file_reference`.
`dbW` already holds the live `bookF` with `file_id = "F"`; a second
`create_book` with `"F"` succeeds (returns the new id 2), and the catalog then
holds two live books with that reference — not exactly one, and no
`DuplicateError` is possible since `add_book` is a bare `INSERT` and the schema
has no UNIQUE constraint on `file_id`. -/
theorem C1_counterexample :
    (add_book dbW 1 "Boshqa" "F" 2 1 "pdf" none none none none none).1 = 2
    ∧ ((add_book dbW 1 "Boshqa" "F" 2 1 "pdf" none none none none none).2.books.filter
        (fun b => b.file_id == "F" && !b.is_deleted)).length = 2 := by
  decide

/-- C1 (amended): duplicate detection is enforced by the upload handler, not
the store.  If any stored book (deleted or not) carries the incoming
`file_id`, the `add_book_file` handler re-prompts in the same state and leaves
the store untouched; `add_book` itself inserts unconditionally. -/
theorem C1_dup_check_is_in_handler (db : Db) (uploader : Option Nat) (now : Nat)
    (d : BookDraft) (fd : FileData) (b : Book)
    (h : get_book_by_file_id db fd.file_id = some b) :
    uploadStep uploader now db .upload_file d (.fileMsg fd)
      = ⟨some .upload_file, d, db, none⟩
    ∧ ∀ (now' : Nat) (t fid ft : String) (cid uid : Nat) (a n de : Option String)
        (du fs : Option Nat),
        (add_book db now' t fid cid uid ft a n de du fs).2.books.length
          = db.books.length + 1 := by
  constructor
  · simp [uploadStep, h]
  · intro now' t fid ft cid uid a n de du fs
    simp [add_book]

/-- Witness for the amended C1 at the stored duplicate reference `"F"`. -/
theorem C1_dup_witness :
    uploadStep (some 1) 0 dbW .upload_file draftEmpty (.fileMsg fdDup)
      = ⟨some .upload_file, draftEmpty, dbW, none⟩
    ∧ (add_book dbW 0 "T" "F" 2 1 "pdf" none none none none none).2.books.length
        = dbW.books.length + 1 :=
  ⟨(C1_dup_check_is_in_handler dbW (some 1) 0 draftEmpty fdDup bookF (by decide)).1,
   (C1_dup_check_is_in_handler dbW (some 1) 0 draftEmpty fdDup bookF (by decide)).2
     0 "T" "F" "pdf" 2 1 none none none none none⟩

-- ===================== C2 =====================

/-- C2 counterexample: `add_category` performs no validation.  Called directly
with the 1-character name `"x"` on the empty store it succeeds (returns id 1)
and inserts the row, instead of failing with `ValidationError` and inserting
nothing. -/
theorem C2_counterexample :
    ("x".length < 2)
    ∧ (add_category dbEmpty 0 "x" 1 none none).1 = 1
    ∧ (add_category dbEmpty 0 "x" 1 none none).2.categories.map (fun c => c.name)
        = ["x"] := by
  decide

/-- C2 (amended): the length and live-sibling validation lives in the
`category_name_entered` handler, which re-prompts — never reaching
`add_category`, so no row is inserted — whenever the stripped name is shorter
than 2 or longer than 100 characters or a live sibling with the same name and
parent exists; `add_category` itself inserts unconditionally. -/
theorem C2_validation_is_in_handler (db : Db) (parent_id : Option Nat) (text : String)
    (hnc : text ≠ cancelText)
    (h : (strip text).length < 2 ∨ 100 < (strip text).length
         ∨ (get_category_by_name db (strip text) parent_id).isSome = true) :
    category_name_entered db parent_id text = .reprompt
    ∧ ∀ (now created_by : Nat) (descr : Option String) (name : String)
        (pid : Option Nat),
        (add_category db now name created_by descr pid).2.categories.length
          = db.categories.length + 1 := by
  constructor
  · have hc : (text == cancelText) = false := by simp [hnc]
    simp only [category_name_entered, hc, Bool.false_eq_true, if_false]
    by_cases hlen : (strip text).length < 2 ∨ 100 < (strip text).length
    · have : ((strip text).length < 2 || 100 < (strip text).length) = true := by
        rcases hlen with h1 | h1 <;> simp [h1]
      simp [this]
    · have hlb : ¬ (strip text).length < 2 := fun h1 => hlen (Or.inl h1)
      have hub : ¬ 100 < (strip text).length := fun h1 => hlen (Or.inr h1)
      have hsib : (get_category_by_name db (strip text) parent_id).isSome = true := by
        rcases h with h1 | h1 | h1
        · exact absurd h1 hlb
        · exact absurd h1 hub
        · exact h1
      simp [hlb, hub, hsib]
  · intro now created_by descr name pid
    simp [add_category]

/-- Witness for the amended C2: entering the existing live root name
`"Adabiyot"` again re-prompts, while `add_category` would insert. -/
theorem C2_validation_witness :
    category_name_entered dbW none "Adabiyot" = .reprompt
    ∧ (add_category dbW 0 "Adabiyot" 1 none none).2.categories.length
        = dbW.categories.length + 1 :=
  ⟨(C2_validation_is_in_handler dbW none "Adabiyot" (by decide)
      (Or.inr (Or.inr (by decide)))).1,
   (C2_validation_is_in_handler dbW none "Adabiyot" (by decide)
      (Or.inr (Or.inr (by decide)))).2 0 1 none "Adabiyot" none⟩

-- ===================== C3 =====================

/-- The records record #3 empty-string title: SQLite's `NOT NULL` accepts `""`. -/
def rowsEmptyTitle : List BookRow :=
  [⟨some "K1", some "f1", some "pdf", some 1, none, none, none, none, none, some 1⟩,
   ⟨some "K2", some "f2", some "pdf", some 1, none, none, none, none, none, some 1⟩,
   ⟨some "", some "f3", some "pdf", some 1, none, none, none, none, none, some 1⟩,
   ⟨some "K4", some "f4", some "pdf", some 1, none, none, none, none, none, some 1⟩,
   ⟨some "K5", some "f5", some "pdf", some 1, none, none, none, none, none, some 1⟩]

/-- The same records with record #3 carrying a `None` title, which does violate
the `NOT NULL` constraint. -/
def rowsNullTitle : List BookRow :=
  [⟨some "K1", some "f1", some "pdf", some 1, none, none, none, none, none, some 1⟩,
   ⟨some "K2", some "f2", some "pdf", some 1, none, none, none, none, none, some 1⟩,
   ⟨none, some "f3", some "pdf", some 1, none, none, none, none, none, some 1⟩,
   ⟨some "K4", some "f4", some "pdf", some 1, none, none, none, none, none, some 1⟩,
   ⟨some "K5", some "f5", some "pdf", some 1, none, none, none, none, none, some 1⟩]

/-- C3 counterexample: an empty-string title is not a constraint violation, so
the documented scenario returns `(5, 0)` with all 5 rows inserted — not
`(4, 1)` with 4 rows. -/
theorem C3_counterexample :
    (add_books_bulk dbEmpty 0 rowsEmptyTitle).1 = (5, 0)
    ∧ (add_books_bulk dbEmpty 0 rowsEmptyTitle).1 ≠ (4, 1)
    ∧ (add_books_bulk dbEmpty 0 rowsEmptyTitle).2.books.length = 5 := by
  decide

/-- Splitting a list by a predicate splits its length. -/
theorem filter_length_split {α : Type} (p : α → Bool) :
    ∀ l : List α, (l.filter p).length + (l.filter (fun x => !p x)).length = l.length
  | [] => rfl
  | x :: xs => by
      have ih := filter_length_split p xs
      by_cases hx : p x = true
      · simp [List.filter_cons, hx]
        omega
      · have hx' : p x = false := by simpa using hx
        simp [List.filter_cons, hx']
        omega

/-- A bulk record inserts exactly when no `NOT NULL` column is `None`. -/
theorem bulkInsert_isSome_iff (db : Db) (now : Nat) (r : BookRow) :
    (bulkInsert db now r).isSome = bulkRowOk r := by
  rcases r with ⟨t, fid, ft, cid, a, n, de, du, fs, uid⟩
  cases t <;> cases fid <;> cases ft <;> cases cid <;> cases uid <;> rfl

/-- A successful bulk insert adds exactly one `Books` row. -/
theorem bulkInsert_books_length (db : Db) (now : Nat) (r : BookRow) (bid : Nat)
    (db' : Db) (h : bulkInsert db now r = some (bid, db')) :
    db'.books.length = db.books.length + 1 := by
  rcases r with ⟨t, fid, ft, cid, a, n, de, du, fs, uid⟩
  cases t <;> cases fid <;> cases ft <;> cases cid <;> cases uid <;>
    simp only [bulkInsert, add_book, Option.some.injEq, Prod.mk.injEq] at h <;>
    first
      | exact Option.noConfusion h
      | (rw [← h.2]
         simp)

/-- The bulk fold counts successes and failures independently of each other and
of the starting counters, and grows the table by exactly the success count. -/
theorem bulk_fold_counts (now : Nat) :
    ∀ (rows : List BookRow) (a e : Nat) (db : Db),
      ((rows.foldl (bulkStep now) ((a, e), db)).1.1 = a + (rows.filter bulkRowOk).length)
      ∧ ((rows.foldl (bulkStep now) ((a, e), db)).1.2
          = e + (rows.filter (fun r => !bulkRowOk r)).length)
      ∧ ((rows.foldl (bulkStep now) ((a, e), db)).2.books.length
          = db.books.length + (rows.filter bulkRowOk).length)
  | [], a, e, db => by simp
  | r :: rows, a, e, db => by
      by_cases hok : bulkRowOk r = true
      · have hsome : (bulkInsert db now r).isSome = true := by
          rw [bulkInsert_isSome_iff, hok]
        rcases hres : bulkInsert db now r with _ | p
        · rw [hres] at hsome
          simp at hsome
        · have hstep : bulkStep now ((a, e), db) r = ((a + 1, e), p.2) := by
            simp [bulkStep, hres]
          have hlen : p.2.books.length = db.books.length + 1 :=
            bulkInsert_books_length db now r p.1 p.2 (by rw [hres])
          have ih := bulk_fold_counts now rows (a + 1) e p.2
          simp only [List.foldl_cons, hstep, List.filter_cons, hok]
          refine ⟨?_, ?_, ?_⟩
          · rw [ih.1]
            simp [Nat.add_assoc, Nat.add_comm 1]
          · rw [ih.2.1]
            simp [hok]
          · rw [ih.2.2, hlen]
            simp [Nat.add_assoc, Nat.add_comm 1]
      · have hnone : bulkInsert db now r = none := by
          have hsome : (bulkInsert db now r).isSome = false := by
            rw [bulkInsert_isSome_iff]
            simpa using hok
          rcases hres : bulkInsert db now r with _ | p
          · rfl
          · rw [hres] at hsome
            simp at hsome
        have hstep : bulkStep now ((a, e), db) r = ((a, e + 1), db) := by
          simp [bulkStep, hnone]
        have ih := bulk_fold_counts now rows a (e + 1) db
        have hokf : bulkRowOk r = false := by simpa using hok
        simp only [List.foldl_cons, hstep, List.filter_cons, hokf]
        refine ⟨?_, ?_, ?_⟩
        · rw [ih.1]
          simp
        · rw [ih.2.1]
          simp [hokf, Nat.add_assoc, Nat.add_comm 1]
        · exact ih.2.2

/-- C3 (amended): `add_books_bulk` applies each record independently — the
returned pair counts exactly the records that satisfy/violate the schema's
`NOT NULL` constraints, their sum is the number of records, the table grows by
exactly the success count, and a failed record aborts nothing.  The documented
5-record scenario holds with a `None` title (a genuine constraint violation):
the result is `(4, 1)` and exactly 4 rows exist; an empty-string title is
accepted by SQLite (see the counterexample). -/
theorem C3_bulk_partial_success (db : Db) (now : Nat) (rows : List BookRow) :
    (add_books_bulk db now rows).1.1 = (rows.filter bulkRowOk).length
    ∧ (add_books_bulk db now rows).1.2 = (rows.filter (fun r => !bulkRowOk r)).length
    ∧ (add_books_bulk db now rows).1.1 + (add_books_bulk db now rows).1.2 = rows.length
    ∧ (add_books_bulk db now rows).2.books.length
        = db.books.length + (add_books_bulk db now rows).1.1
    ∧ (add_books_bulk dbEmpty 0 rowsNullTitle).1 = (4, 1)
    ∧ (add_books_bulk dbEmpty 0 rowsNullTitle).2.books.length = 4 := by
  have h := bulk_fold_counts now rows 0 0 db
  have h1 : (add_books_bulk db now rows).1.1 = (rows.filter bulkRowOk).length := by
    simpa [add_books_bulk] using h.1
  have h2 : (add_books_bulk db now rows).1.2
      = (rows.filter (fun r => !bulkRowOk r)).length := by
    simpa [add_books_bulk] using h.2.1
  have h3 : (add_books_bulk db now rows).2.books.length
      = db.books.length + (add_books_bulk db now rows).1.1 := by
    rw [h1]
    simpa [add_books_bulk] using h.2.2
  refine ⟨h1, h2, ?_, h3, by decide, by decide⟩
  rw [h1, h2]
  exact filter_length_split bulkRowOk rows

-- ===================== C4 =====================

/-- Termination measure of the path walk: the number of stored category ids not
yet visited. -/
def idsNotVisited (db : Db) (visited : List Nat) : Nat :=
  ((db.categories.map (fun c => c.id)).filter (fun x => decide (x ∉ visited))).length

/-- A filter by a stronger predicate is no longer. -/
theorem filter_length_mono {α : Type} (p q : α → Bool)
    (himp : ∀ x, p x = true → q x = true) :
    ∀ l : List α, (l.filter p).length ≤ (l.filter q).length
  | [] => Nat.le_refl _
  | x :: xs => by
      have ih := filter_length_mono p q himp xs
      by_cases hp : p x = true
      · have hq := himp x hp
        simp [List.filter_cons, hp, hq]
        omega
      · have hp' : p x = false := by simpa using hp
        by_cases hq : q x = true
        · simp [List.filter_cons, hp', hq]
          omega
        · have hq' : q x = false := by simpa using hq
          simp [List.filter_cons, hp', hq']
          omega

/-- A filter by a strictly stronger predicate, failing on a list element that
the weaker predicate accepts, is strictly shorter. -/
theorem filter_length_strict_gen {α : Type} (p q : α → Bool)
    (himp : ∀ x, p x = true → q x = true) (c : α) (hpc : p c = false)
    (hqc : q c = true) :
    ∀ {l : List α}, c ∈ l → (l.filter p).length < (l.filter q).length := by
  intro l
  induction l with
  | nil => intro hc; cases hc
  | cons x xs ih =>
      intro hc
      have hmono := filter_length_mono p q himp xs
      rcases List.mem_cons.1 hc with rfl | hcx
      · simp [List.filter_cons, hpc, hqc]
        omega
      · have ihs := ih hcx
        by_cases hpx : p x = true
        · have hqx := himp x hpx
          simp [List.filter_cons, hpx, hqx]
          omega
        · have hpx' : p x = false := by simpa using hpx
          by_cases hqx : q x = true
          · simp [List.filter_cons, hpx', hqx]
            omega
          · have hqx' : q x = false := by simpa using hqx
            simp [List.filter_cons, hpx', hqx']
            exact ihs

/-- Visiting a stored, not-yet-visited id strictly shrinks the measure. -/
theorem filter_length_strict {c : Nat} {visited : List Nat} {l : List Nat}
    (hc : c ∈ l) (hnv : c ∉ visited) :
    (l.filter (fun x => decide (x ∉ c :: visited))).length
      < (l.filter (fun x => decide (x ∉ visited))).length :=
  filter_length_strict_gen _ _
    (by
      intro y hy
      simp only [decide_eq_true_eq] at hy ⊢
      exact fun hmem => hy (List.mem_cons_of_mem _ hmem))
    c (by simp) (by simpa using hnv) hc

/-- Once the fuel exceeds the measure, the walk's value no longer depends on
it: the Python `while` loop terminates within `idsNotVisited` iterations. -/
theorem pathLoop_fuel_stable (db : Db) :
    ∀ (f1 f2 : Nat) (current : Option Nat) (visited : List Nat)
      (acc : List (Nat × String)),
      idsNotVisited db visited < f1 → idsNotVisited db visited < f2 →
      pathLoop db f1 current visited acc = pathLoop db f2 current visited acc := by
  intro f1
  induction f1 with
  | zero =>
      intro f2 cur v acc h1 h2
      omega
  | succ n ih =>
      intro f2 cur v acc h1 h2
      cases f2 with
      | zero => omega
      | succ m =>
          cases cur with
          | none => rfl
          | some c =>
              simp only [pathLoop]
              by_cases h0 : c = 0
              · rw [if_pos h0, if_pos h0]
              · rw [if_neg h0, if_neg h0]
                by_cases hv : c ∈ v
                · rw [if_pos hv, if_pos hv]
                · rw [if_neg hv, if_neg hv]
                  cases hfind : get_category_by_id db c with
                  | none => rfl
                  | some cat =>
                      have hcmem : c ∈ db.categories.map (fun c => c.id) := by
                        simp only [get_category_by_id] at hfind
                        have hmem := List.mem_of_find?_eq_some hfind
                        have hpred : cat.id = c := by
                          simpa using List.find?_some hfind
                        exact List.mem_map.2 ⟨cat, hmem, hpred⟩
                      have hdec : idsNotVisited db (c :: v) < idsNotVisited db v :=
                        filter_length_strict hcmem hv
                      exact ih m cat.parent_id (c :: v) ((c, cat.name) :: acc)
                        (by omega) (by omega)

/-- The walk never pushes an id that is already in `visited`, so the produced
trace of ids has no duplicates. -/
theorem pathLoop_trace_nodup (db : Db) :
    ∀ (fuel : Nat) (cur : Option Nat) (visited : List Nat)
      (acc : List (Nat × String)),
      (acc.map Prod.fst).Nodup → (∀ x ∈ acc.map Prod.fst, x ∈ visited) →
      ((pathLoop db fuel cur visited acc).map Prod.fst).Nodup := by
  intro fuel
  induction fuel with
  | zero =>
      intro cur v acc h1 h2
      simpa [pathLoop] using h1
  | succ n ih =>
      intro cur v acc h1 h2
      cases cur with
      | none => simpa [pathLoop] using h1
      | some c =>
          simp only [pathLoop]
          by_cases h0 : c = 0
          · rw [if_pos h0]; exact h1
          · rw [if_neg h0]
            by_cases hv : c ∈ v
            · rw [if_pos hv]; exact h1
            · rw [if_neg hv]
              cases hfind : get_category_by_id db c with
              | none => exact h1
              | some cat =>
                  apply ih
                  · simp only [List.map_cons]
                    refine List.Nodup.cons ?_ h1
                    intro hmem
                    exact hv (h2 c hmem)
                  · intro x hx
                    simp only [List.map_cons, List.mem_cons] at hx
                    rcases hx with rfl | hx
                    · exact List.mem_cons_self _ _
                    · exact List.mem_cons_of_mem _ (h2 x hx)

/-- The accumulated root-first entries always form a genuine parent chain of
the stored table. -/
theorem pathLoop_chainOk (db : Db) :
    ∀ (fuel : Nat) (cur : Option Nat) (visited : List Nat)
      (acc : List (Nat × String)),
      chainOk db acc = true →
      (∀ a rest, acc = a :: rest →
        ∃ cat, get_category_by_id db a.1 = some cat ∧ cat.parent_id = cur) →
      chainOk db (pathLoop db fuel cur visited acc) = true := by
  intro fuel
  induction fuel with
  | zero =>
      intro cur v acc h1 h2
      simpa [pathLoop] using h1
  | succ n ih =>
      intro cur v acc h1 h2
      cases cur with
      | none => simpa [pathLoop] using h1
      | some c =>
          simp only [pathLoop]
          by_cases h0 : c = 0
          · rw [if_pos h0]; exact h1
          · rw [if_neg h0]
            by_cases hv : c ∈ v
            · rw [if_pos hv]; exact h1
            · rw [if_neg hv]
              cases hfind : get_category_by_id db c with
              | none => exact h1
              | some cat =>
                  apply ih
                  · cases acc with
                    | nil => simp [chainOk, entryOk, hfind]
                    | cons a rest =>
                        obtain ⟨cata, hga, hpar⟩ := h2 a rest rfl
                        simp only [chainOk, Bool.and_eq_true]
                        refine ⟨⟨?_, ?_⟩, h1⟩
                        · simp [entryOk, hfind]
                        · simp [linkOk, hga, hpar]
                  · intro a rest heq
                    injection heq with ha hrest
                    refine ⟨cat, ?_, rfl⟩
                    rw [← ha]
                    exact hfind

/-- C4: for every stored table (cyclic links included) the `get_category_path`
walk stabilizes within `|Categories| + 1` iterations (termination), its trace
of visited ids has no duplicates, the collected entries form a genuine
root-first parent chain of the table, and the returned string is those names
joined by the `" → "` separator. -/
theorem C4_path_walk (db : Db) (cid : Nat) :
    (∀ fuel, db.categories.length + 1 ≤ fuel →
        pathLoop db fuel (some cid) [] []
          = pathLoop db (db.categories.length + 1) (some cid) [] [])
    ∧ ((pathLoop db (db.categories.length + 1) (some cid) [] []).map Prod.fst).Nodup
    ∧ chainOk db (pathLoop db (db.categories.length + 1) (some cid) [] []) = true
    ∧ get_category_path db cid
        = String.intercalate " → "
            ((pathLoop db (db.categories.length + 1) (some cid) [] []).map Prod.snd) := by
  have hbound : idsNotVisited db [] ≤ db.categories.length := by
    calc idsNotVisited db []
        ≤ (db.categories.map (fun c => c.id)).length :=
          List.length_filter_le _ _
      _ = db.categories.length := List.length_map _ _
  refine ⟨?_, ?_, ?_, rfl⟩
  · intro fuel hf
    exact pathLoop_fuel_stable db fuel (db.categories.length + 1) (some cid) [] []
      (by omega) (by omega)
  · exact pathLoop_trace_nodup db (db.categories.length + 1) (some cid) [] []
      List.nodup_nil (by intro x hx; cases hx)
  · exact pathLoop_chainOk db (db.categories.length + 1) (some cid) [] [] rfl
      (by intro a rest heq; cases heq)

/-- Witness for C4 on a deliberately cyclic table: the walk terminates, visits
each of the two ids once, and returns the truncated chain. -/
theorem C4_path_witness :
    pathLoop dbCyc 7 (some 1) [] [] = pathLoop dbCyc 3 (some 1) [] []
    ∧ ((pathLoop dbCyc 3 (some 1) [] []).map Prod.fst).Nodup
    ∧ get_category_path dbCyc 1 = "Asosiy → Bolalar" :=
  ⟨(C4_path_walk dbCyc 1).1 7 (by decide),
   (C4_path_walk dbCyc 1).2.1,
   by decide⟩

-- ===================== C5 =====================

/-- Consecutive `LIMIT P OFFSET p*P` slices reassemble the whole list once the
page count covers its length. -/
theorem pages_flatten {α : Type} (P : Nat) :
    ∀ (t : Nat) (l : List α), l.length ≤ t * P →
      ((List.range t).map (fun p => (l.drop (p * P)).take P)).flatten = l
  | 0, l, h => by
      have hl : l = [] := by
        cases l with
        | nil => rfl
        | cons x xs => simp at h
      simp [hl]
  | t + 1, l, h => by
      rw [List.range_succ_eq_map]
      simp only [List.map_cons, List.map_map, List.flatten_cons]
      have htail : (List.range t).map ((fun p => (l.drop (p * P)).take P) ∘ Nat.succ)
          = (List.range t).map (fun p => ((l.drop P).drop (p * P)).take P) := by
        apply map_congr_fun
        intro p
        simp only [Function.comp]
        rw [List.drop_drop]
        congr 2
        simp only [Nat.succ_eq_add_one]
        ring
      rw [htail]
      have hlen : (l.drop P).length ≤ t * P := by
        rw [List.length_drop]
        have : (t + 1) * P = t * P + P := by ring
        omega
      rw [pages_flatten P t (l.drop P) hlen]
      simp [Nat.zero_mul]

/-- The `total_pages` formula covers every matching row:
`N ≤ total_pages * P`. -/
theorem le_total_pages_mul (N P : Nat) (hP : 1 ≤ P) :
    N ≤ (if N > 0 then (N + P - 1) / P else 1) * P := by
  by_cases hN : N > 0
  · rw [if_pos hN]
    have h1 : N + P - 1 = (N - 1) + P := by omega
    rw [h1, Nat.add_div_right _ (by omega)]
    have hq := Nat.div_add_mod (N - 1) P
    have hmod : (N - 1) % P < P := Nat.mod_lt _ (by omega)
    have h2 : N - 1 < ((N - 1) / P + 1) * P := by
      calc N - 1 = P * ((N - 1) / P) + (N - 1) % P := hq.symm
        _ < P * ((N - 1) / P) + P := by omega
        _ = ((N - 1) / P + 1) * P := by ring
    omega
  · rw [if_neg hN]
    omega

/-- The code's `total_pages` equals ceiling division with a floor of one. -/
theorem total_pages_eq_max (N P : Nat) (hP : 1 ≤ P) :
    (if N > 0 then (N + P - 1) / P else 1) = max 1 ((N + P - 1) / P) := by
  by_cases hN : N > 0
  · rw [if_pos hN]
    have h1 : 1 ≤ (N + P - 1) / P := by
      rw [Nat.one_le_div_iff (by omega)]
      omega
    omega
  · rw [if_neg hN]
    have hN0 : N = 0 := by omega
    subst hN0
    have h0 : (0 + P - 1) / P = 0 := Nat.div_eq_of_lt (by omega)
    omega

/-- C5: `get_books` reports `total` as the exact match count,
`total_pages = ceil(total / per_page)` floored at 1 (so never 0), and the item
slices of pages `1..total_pages` concatenate to the whole ordered match list —
a permutation of the matching rows — so their lengths sum to the match count. -/
theorem C5_pagination (db : Db) (category_id : Option Nat) (file_type : Option String)
    (include_deleted : Bool) (per_page : Nat) (sort_by : BookSortBy)
    (sort_order : SortOrder) (page : Nat) (hP : 1 ≤ per_page) :
    (get_books db category_id file_type include_deleted page per_page sort_by
        sort_order).total
      = (db.books.filter (matchesFilter include_deleted category_id file_type)).length
    ∧ (get_books db category_id file_type include_deleted page per_page sort_by
        sort_order).total_pages
      = max 1 (((db.books.filter (matchesFilter include_deleted category_id file_type)).length
          + per_page - 1) / per_page)
    ∧ 1 ≤ (get_books db category_id file_type include_deleted page per_page sort_by
        sort_order).total_pages
    ∧ ((List.range (get_books db category_id file_type include_deleted page per_page
          sort_by sort_order).total_pages).map (fun p =>
            (get_books db category_id file_type include_deleted (p + 1) per_page sort_by
              sort_order).items)).flatten
      = (db.books.filter (matchesFilter include_deleted category_id file_type)).mergeSort
          (bookLe sort_by sort_order)
    ∧ ((db.books.filter (matchesFilter include_deleted category_id file_type)).mergeSort
          (bookLe sort_by sort_order)).Perm
        (db.books.filter (matchesFilter include_deleted category_id file_type))
    ∧ ((List.range (get_books db category_id file_type include_deleted page per_page
          sort_by sort_order).total_pages).map (fun p =>
            ((get_books db category_id file_type include_deleted (p + 1) per_page sort_by
              sort_order).items).length)).sum
      = (db.books.filter (matchesFilter include_deleted category_id file_type)).length := by
  have htp : ∀ pg : Nat, (get_books db category_id file_type include_deleted pg per_page
      sort_by sort_order).total_pages
      = (if (db.books.filter (matchesFilter include_deleted category_id file_type)).length > 0
         then ((db.books.filter (matchesFilter include_deleted category_id file_type)).length
            + per_page - 1) / per_page
         else 1) := fun pg => rfl
  have hitems : ∀ pg : Nat, (get_books db category_id file_type include_deleted pg per_page
      sort_by sort_order).items
      = (((db.books.filter (matchesFilter include_deleted category_id file_type)).mergeSort
          (bookLe sort_by sort_order)).drop ((pg - 1) * per_page)).take per_page :=
    fun pg => rfl
  have hperm := List.mergeSort_perm
    (db.books.filter (matchesFilter include_deleted category_id file_type))
    (bookLe sort_by sort_order)
  have hslen := hperm.length_eq
  have hcover : ((db.books.filter (matchesFilter include_deleted category_id
      file_type)).mergeSort (bookLe sort_by sort_order)).length
      ≤ (get_books db category_id file_type include_deleted page per_page sort_by
          sort_order).total_pages * per_page := by
    rw [htp page, hslen]
    exact le_total_pages_mul _ per_page hP
  have hflat : ((List.range (get_books db category_id file_type include_deleted page
      per_page sort_by sort_order).total_pages).map (fun p =>
        (get_books db category_id file_type include_deleted (p + 1) per_page sort_by
          sort_order).items)).flatten
      = (db.books.filter (matchesFilter include_deleted category_id file_type)).mergeSort
          (bookLe sort_by sort_order) := by
    have hmap : (List.range (get_books db category_id file_type include_deleted page
        per_page sort_by sort_order).total_pages).map (fun p =>
          (get_books db category_id file_type include_deleted (p + 1) per_page sort_by
            sort_order).items)
        = (List.range (get_books db category_id file_type include_deleted page per_page
            sort_by sort_order).total_pages).map (fun p =>
              ((((db.books.filter (matchesFilter include_deleted category_id
                  file_type)).mergeSort (bookLe sort_by sort_order)).drop
                (p * per_page)).take per_page)) := by
      apply map_congr_fun
      intro p
      rw [hitems (p + 1)]
      simp
    rw [hmap]
    exact pages_flatten per_page _ _ hcover
  refine ⟨rfl, ?_, ?_, hflat, hperm, ?_⟩
  · rw [htp page]
    exact total_pages_eq_max _ per_page hP
  · rw [htp page, total_pages_eq_max _ per_page hP]
    exact le_max_left _ _
  · have hsum := congrArg List.length hflat
    rw [List.length_flatten, List.map_map, hslen] at hsum
    simpa [Function.comp] using hsum

/-- Witness for C5 on the concrete store with one matching row and two rows per
page. -/
theorem C5_pagination_witness :
    (get_books dbW none none false 1 2 .created_at .desc).total_pages
      = max 1 (((dbW.books.filter (matchesFilter false none none)).length + 2 - 1) / 2)
    ∧ ((List.range (get_books dbW none none false 1 2 .created_at
          .desc).total_pages).map (fun p =>
            ((get_books dbW none none false (p + 1) 2 .created_at .desc).items).length)).sum
        = (dbW.books.filter (matchesFilter false none none)).length :=
  ⟨(C5_pagination dbW none none false 2 .created_at .desc 1 (by decide)).2.1,
   (C5_pagination dbW none none false 2 .created_at .desc 1 (by decide)).2.2.2.2.2⟩

end BooksBot
